import Mathlib

set_option maxRecDepth 8192

/-!
Verification development for the perlsub program (src/src/main.rs).

The program is a Telegram bot that runs user-supplied perl substitution
expressions against a referenced message's text inside a layered sandbox.
Below we give a shallow embedding of its pure data transformations
(`unique_id`, `filter_exprs`, the `run_perl` output handling and command
construction) and a step model of the per-update dispatcher closure in
`do_main`, with oracles standing for the outcomes of the external calls
(perl subprocess, sled store lookup, Telegram send/edit/delete).
-/

namespace Perlsub

/-- Little-endian byte encoding of a natural into `k` bytes, mirroring the
Rust `to_le_bytes` conversions (`u128::to_le_bytes`, `i32::to_le_bytes`). -/
def toLeBytes : Nat → Nat → List Nat
  | _, 0 => []
  | n, k + 1 => n % 256 :: toLeBytes (n / 256) k

/-- Little-endian byte decoding, used to reason about `to_le_bytes`. -/
def fromLeBytes : List Nat → Nat
  | [] => 0
  | b :: bs => b + 256 * fromLeBytes bs

/-- Two's-complement reinterpretation of a signed integer as an unsigned
128-bit value: Rust `as u128` sign-extends, i.e. takes the value mod 2^128. -/
def asU128 (i : Int) : Nat := (i % (2 ^ 128 : Int)).toNat

/-- Two's-complement reinterpretation of a signed integer as `u32` bits,
used for `i32::to_le_bytes`. -/
def asU32 (i : Int) : Nat := (i % (2 ^ 32 : Int)).toNat

/-- `unique_id` (main.rs:116-118):
`(((message.id as u128) << 64) | (message.chat.id.0 as u128)).to_le_bytes()`.
`message.id` is an `i32`, `message.chat.id.0` an `i64`; both are
sign-extended to 128 bits, the message id is shifted into the high 64 bits
(the shift is performed in `u128`, hence mod 2^128) and or-ed with the
sign-extended chat id. -/
def unique_id (msgId chatId : Int) : List Nat :=
  toLeBytes (((asU128 msgId <<< 64) % 2 ^ 128) ||| asU128 chatId) 16

/-- `sent.id.to_le_bytes()` for the `i32` reply message id (main.rs:180). -/
def i32ToLeBytes (i : Int) : List Nat := toLeBytes (asU32 i) 4

/-- `i32::from_le_bytes` applied to a 4-byte little-endian value
(main.rs:161-165). -/
def i32FromLeBytes (bs : List Nat) : Int :=
  let n := fromLeBytes bs
  if n < 2 ^ 31 then (n : Int) else (n : Int) - 2 ^ 32

/-- Split a character list at every newline character; the result always has
one more segment than there are newlines. Building block for Rust
`str::lines`. -/
def splitNL : List Char → List (List Char)
  | [] => [[]]
  | c :: rest =>
    if c = '\n' then [] :: splitNL rest
    else
      match splitNL rest with
      | [] => [[c]]
      | l :: ls => (c :: l) :: ls

/-- Strip one trailing carriage return, as Rust `str::lines` does on each
newline-terminated segment (so that `\r\n` terminators also work). -/
def stripCR (l : List Char) : List Char :=
  if l.getLast? = some '\r' then l.dropLast else l

/-- Rust `str::lines`: split at `\n`, drop the final segment when it is empty
(the final line terminator is optional), and strip one `\r` from every
segment that was terminated by a `\n`. -/
def rustLines (s : String) : List String :=
  let parts := splitNL s.data
  let init := (parts.dropLast.map stripCR).map String.mk
  match parts.getLast? with
  | none => init
  | some [] => init
  | some l => init ++ [String.mk l]

/-- The retention test of `filter_exprs` (main.rs:113):
`matches!(line.get(..2), Some("s/" | "s(" | "s[" | "s<" | "s{"))`.
The five delimiter characters are all single-byte ASCII, so the byte-slice
check of the source coincides with this character-level check. -/
def isSubstLine (line : String) : Bool :=
  match line.data with
  | c :: d :: _ =>
    c == 's' && (d == '/' || d == '(' || d == '[' || d == '<' || d == Char.ofNat 123)
  | _ => false

/-- `filter_exprs` (main.rs:110-114): keep exactly the lines whose first two
bytes are `s` followed by one of the five recognized delimiters. -/
def filter_exprs (raw : String) : List String :=
  (rustLines raw).filter isSubstLine

/-- The Unicode replacement character U+FFFD emitted by
`String::from_utf8_lossy` for invalid byte sequences. -/
def replChar : Nat := 0xFFFD

/-- Continuation-byte test for UTF-8 decoding (0x80-0xBF). -/
def isCont (b : Nat) : Bool := decide (0x80 ≤ b ∧ b ≤ 0xBF)

/-- Code point accumulated from a two-byte UTF-8 sequence. -/
def utf8Acc2 (b b2 : Nat) : Nat := (b - 0xC0) * 0x40 + (b2 - 0x80)

/-- Code point accumulated from a three-byte UTF-8 sequence. -/
def utf8Acc3 (b b2 b3 : Nat) : Nat := (b - 0xE0) * 0x1000 + (b2 - 0x80) * 0x40 + (b3 - 0x80)

/-- Code point accumulated from a four-byte UTF-8 sequence. -/
def utf8Acc4 (b b2 b3 b4 : Nat) : Nat :=
  (b - 0xF0) * 0x40000 + (b2 - 0x80) * 0x1000 + (b3 - 0x80) * 0x40 + (b4 - 0x80)

/-- Lower bound of the admissible second byte for a multi-byte lead: `E0`
requires A0-BF and `F0` requires 90-BF (overlong rejection), every other
lead accepts from 80. -/
def snd2lo (b : Nat) : Nat := if b = 0xE0 then 0xA0 else if b = 0xF0 then 0x90 else 0x80

/-- Upper bound of the admissible second byte for a multi-byte lead: `ED`
admits up to 9F (surrogate rejection) and `F4` up to 8F (values above
U+10FFFF rejected), every other lead admits up to BF. -/
def snd2hi (b : Nat) : Nat := if b = 0xED then 0x9F else if b = 0xF4 then 0x8F else 0xBF

/-- Fourth decoder byte: either completes a four-byte sequence or yields a
replacement for the three-byte maximal subpart. -/
def utf8Take4 (b b2 b3 b4 : Nat) (rest4 : List Nat) : Nat × List Nat :=
  if isCont b4 then (utf8Acc4 b b2 b3 b4, rest4) else (replChar, b4 :: rest4)

/-- Third decoder byte for a lead of three or four bytes. -/
def utf8Take3 (b b2 b3 : Nat) (rest3 : List Nat) : Nat × List Nat :=
  if isCont b3 then
    if b ≤ 0xEF then (utf8Acc3 b b2 b3, rest3)
    else
      match rest3 with
      | [] => (replChar, [])
      | b4 :: rest4 => utf8Take4 b b2 b3 b4 rest4
  else (replChar, b3 :: rest3)

/-- Second decoder byte for a multi-byte lead (C2-F4). -/
def utf8Take2 (b b2 : Nat) (rest2 : List Nat) : Nat × List Nat :=
  if b ≤ 0xDF then
    if isCont b2 then (utf8Acc2 b b2, rest2) else (replChar, b2 :: rest2)
  else
    if snd2lo b ≤ b2 ∧ b2 ≤ snd2hi b then
      match rest2 with
      | [] => (replChar, [])
      | b3 :: rest3 => utf8Take3 b b2 b3 rest3
    else (replChar, b2 :: rest2)

/-- One step of the WHATWG UTF-8 decoder with replacement that Rust's
`String::from_utf8_lossy` implements, given the first byte and the remaining
bytes: returns the decoded code point (U+FFFD for an invalid maximal
subpart) and the bytes left over. Leads 00-7F are ASCII; 80-C1 are invalid
(continuations and overlong two-byte leads); C2-F4 start multi-byte
sequences; F5-FF are invalid. -/
def utf8Step (b : Nat) (rest : List Nat) : Nat × List Nat :=
  if b ≤ 0x7F then (b, rest)
  else if b < 0xC2 then (replChar, rest)
  else if b ≤ 0xF4 then
    match rest with
    | [] => (replChar, [])
    | b2 :: rest2 => utf8Take2 b b2 rest2
  else (replChar, rest)

/-- Fuel-indexed iteration of `utf8Step`. Every step consumes at least the
first byte, so any fuel of at least the list length gives the full decode. -/
def utf8LossyFuel : Nat → List Nat → List Nat
  | 0, _ => []
  | _ + 1, [] => []
  | fuel + 1, b :: rest => (utf8Step b rest).1 :: utf8LossyFuel fuel (utf8Step b rest).2

/-- `String::from_utf8_lossy` on a byte list, producing the list of decoded
code points. -/
def utf8Lossy (l : List Nat) : List Nat := utf8LossyFuel l.length l

/-- Number of UTF-8 bytes needed for one code point. -/
def cpUtf8Size (c : Nat) : Nat :=
  if c < 0x80 then 1 else if c < 0x800 then 2 else if c < 0x10000 then 3 else 4

/-- Total UTF-8 byte length of a code-point list, i.e. the byte length of the
string the program builds from it. -/
def utf8SizeSum : List Nat → Nat
  | [] => 0
  | c :: cs => cpUtf8Size c + utf8SizeSum cs

/-- Net effect of the `run_perl` read loop (main.rs:86-95) on the 1024-byte
zero-initialized buffer: the first `min 1024 n` output bytes are written at
the front, every remaining byte keeps its initial value 0. Reading stops when
the buffer is full or the child closes its output. -/
def fillBuf (out : List Nat) : List Nat :=
  out.take 1024 ++ List.replicate (1024 - out.length) 0

/-- Result string (as code points) returned by a successful `run_perl` run
whose child wrote `out` to stdout: `String::from_utf8_lossy(&buf)` decodes
the whole 1024-byte buffer (main.rs:107). -/
def run_perl_output (out : List Nat) : List Nat := utf8Lossy (fillBuf out)

/-- The program's startup configuration (main.rs:37-49); paths are carried as
plain strings. -/
structure Config where
  token : String
  db_path : String
  max_parallel : Nat
  bwrap : String
  perl : String
  prlimit : String
  timeout : String
  allow_dirs : List String

/-- The fixed perl preamble passed via `-lpe` forcing UTF-8 on stdin and
stdout (main.rs:74). -/
def perlPreamble : String :=
  "BEGIN \x7b binmode STDIN, \x27:encoding(UTF-8)\x27; binmode STDOUT, \x27:encoding(UTF-8)\x27; \x7d"

/-- The subprocess invocation built by `run_perl` (main.rs:60-78): the full
argv (program first) and the child environment after `env_clear()` plus
`env("LANG", "C")`. Each expression is appended as `-E "{expr};"` in order. -/
def run_perl_cmd (cfg : Config) (exprs : List String) : List String × List (String × String) :=
  ([cfg.timeout, "--signal", "TERM", "--kill-after", "1s", "0.5s",
    cfg.prlimit, "--memlock=65535", "--rss=4194304", "--cpu=2",
    cfg.bwrap, "--unshare-all", "--proc", "/proc", "--dev", "/dev"]
    ++ cfg.allow_dirs.flatMap (fun dir => ["--ro-bind", dir, dir])
    ++ [cfg.prlimit, "--nproc=1", cfg.perl, "-Mutf8", "-lpe", perlPreamble]
    ++ exprs.flatMap (fun e => ["-E", e ++ ";"]),
   [("LANG", "C")])

/-- The message an inbound message replies to, with its own id, chat and
optional text. -/
structure RefMsg where
  id : Int
  chatId : Int
  text : Option String
  deriving DecidableEq

/-- An inbound Telegram message: numeric id, chat id, optional text, optional
replied-to message. -/
structure Msg where
  id : Int
  chatId : Int
  text : Option String
  replyTo : Option RefMsg
  deriving DecidableEq

/-- Outcome of the `edit_message_text` call: success, the distinguished
`MessageNotModified` API rejection, or any other failure. -/
inductive EditOutcome
  | ok
  | errNotModified
  | errOther
  deriving DecidableEq

instance {ε α : Type} [DecidableEq ε] [DecidableEq α] : DecidableEq (Except ε α) := fun x y =>
  match x, y with
  | Except.ok a, Except.ok b =>
    if h : a = b then Decidable.isTrue (by rw [h]) else Decidable.isFalse (by simp [h])
  | Except.error a, Except.error b =>
    if h : a = b then Decidable.isTrue (by rw [h]) else Decidable.isFalse (by simp [h])
  | Except.ok _, Except.error _ => Decidable.isFalse (by simp)
  | Except.error _, Except.ok _ => Decidable.isFalse (by simp)

/-- Oracles fixing the outcomes of the dispatcher's external calls for one
event: the `run_perl` result (code points of the produced string), the sled
`db.get` answer for this event's key, the `send_message` result (new reply
id), the `edit_message_text` outcome and whether `delete_message` succeeds. -/
structure Oracles where
  perlRes : Except Unit (List Nat)
  dbGet : Option (List Nat)
  sendRes : Except Unit Int
  editRes : EditOutcome
  deleteOk : Bool
  deriving DecidableEq

/-- Externally visible calls made while handling one event, in order. -/
inductive Action
  | invokePerl (exprs : List String) (input : String)
  | send (chatId : Int) (replyToId : Int) (text : List Nat)
  | dbInsert (key : List Nat) (value : List Nat)
  | edit (chatId : Int) (messageId : Int) (text : List Nat)
  | delete (chatId : Int) (messageId : Int)
  deriving DecidableEq

/-- Errors the per-event handler can return (each corresponds to an early
`return Err`/`?` in main.rs:137-189). -/
inductive DispatchError
  | perlFailed
  | dbMissing (msgId : Int)
  | dbWrongLen
  | editFailed
  | sendFailed
  | deleteFailed
  deriving DecidableEq

/-- Terminal state of handling one inbound update. `suppressed` covers every
silent `return Ok(())` taken before a reply or edit is produced. -/
inductive Terminal
  | skipped
  | suppressed
  | replied
  | edited
  | failed (e : DispatchError)
  deriving DecidableEq

/-- Is this action the pipeline invocation? -/
def isInvokePerl : Action → Bool
  | Action.invokePerl _ _ => true
  | _ => false

/-- Is this action a store write? -/
def isInsert : Action → Bool
  | Action.dbInsert _ _ => true
  | _ => false

/-- Is this action a message deletion request? -/
def isDelete : Action → Bool
  | Action.delete _ _ => true
  | _ => false

/-- The trailing `;del` directive step (main.rs:183-187): if any line of the
inbound text equals `;del`, request deletion of the inbound message; a
failing deletion call propagates as an error. -/
def delStep (m : Msg) (rawExprs : String) (o : Oracles) (acts : List Action) (t : Terminal) :
    List Action × Terminal :=
  if (rustLines rawExprs).any (fun l => l == ";del") then
    (acts ++ [Action.delete m.chatId m.id],
     if o.deleteOk then t else Terminal.failed DispatchError.deleteFailed)
  else (acts, t)

/-- The per-message part of the dispatcher endpoint closure
(main.rs:144-189), for a message `m` tagged with whether it arrived as an
edit. Returns the external calls made, in order, and the terminal state. -/
def dispatchMsg (m : Msg) (edited : Bool) (o : Oracles) : List Action × Terminal :=
  match m.replyTo with
  | none => ([], Terminal.suppressed)
  | some replyTo =>
    match replyTo.text with
    | none => ([], Terminal.suppressed)
    | some text =>
      match m.text with
      | none => ([], Terminal.suppressed)
      | some rawExprs =>
        let exprs := filter_exprs rawExprs
        if exprs = [] then ([], Terminal.suppressed)
        else
          match o.perlRes with
          | Except.error _ => ([Action.invokePerl exprs text], Terminal.failed DispatchError.perlFailed)
          | Except.ok res =>
            if res = [] then ([Action.invokePerl exprs text], Terminal.suppressed)
            else
              let pre := [Action.invokePerl exprs text]
              if edited then
                match o.dbGet with
                | none => (pre, Terminal.failed (DispatchError.dbMissing m.id))
                | some stored =>
                  if stored.length = 4 then
                    let acts := pre ++ [Action.edit m.chatId (i32FromLeBytes stored) res]
                    match o.editRes with
                    | EditOutcome.errOther => (acts, Terminal.failed DispatchError.editFailed)
                    | _ => delStep m rawExprs o acts Terminal.edited
                  else (pre, Terminal.failed DispatchError.dbWrongLen)
              else
                let acts := pre ++ [Action.send replyTo.chatId replyTo.id res]
                match o.sendRes with
                | Except.error _ => (acts, Terminal.failed DispatchError.sendFailed)
                | Except.ok sentId =>
                  delStep m rawExprs o
                    (acts ++ [Action.dbInsert (unique_id m.id m.chatId) (i32ToLeBytes sentId)])
                    Terminal.replied

/-- Kind of an inbound update (main.rs:138-142). -/
inductive UpdKind
  | message (m : Msg)
  | editedMessage (m : Msg)
  | other

/-- The dispatcher endpoint for one update: new messages and edited messages
are handled by `dispatchMsg`, every other update kind is ignored. -/
def dispatch (k : UpdKind) (o : Oracles) : List Action × Terminal :=
  match k with
  | UpdKind.message m => dispatchMsg m false o
  | UpdKind.editedMessage m => dispatchMsg m true o
  | UpdKind.other => ([], Terminal.skipped)

/-- Spec-shaped success condition for the reply/edit stage, used to state the
amended deletion-directive claim: on the edit path the stored reply id must
be present and well-formed and the edit must not fail with a propagated
error (the content-unchanged rejection is swallowed); on the new-message
path the send must succeed. -/
def replyStageOk (edited : Bool) (o : Oracles) : Prop :=
  if edited then
    (∃ stored, o.dbGet = some stored ∧ stored.length = 4) ∧ o.editRes ≠ EditOutcome.errOther
  else ∃ i, o.sendRes = Except.ok i

/-! ### Concrete events and oracles used for witnesses and counterexamples -/

/-- A referenced message carrying text `"x"` in chat 20. -/
def rtA : RefMsg := ⟨5, 20, some ("x")⟩

/-- An inbound reply whose text is a single substitution expression. -/
def mA : Msg := ⟨10, 20, some ("s/a/b/"), some rtA⟩

/-- An inbound reply carrying an expression line and a `;del` directive. -/
def mB : Msg := ⟨10, 20, some ("s/a/b/\n;del"), some rtA⟩

/-- A second inbound reply with a different message id and chat id. -/
def mC : Msg := ⟨11, 21, some ("s/a/b/\n;del"), some ⟨6, 21, some ("y")⟩⟩

/-- An inbound message that does not reply to anything. -/
def mNoReply : Msg := ⟨10, 20, some ("s/a/b/"), none⟩

/-- Oracles: perl succeeds with output `"a"`, the store holds a well-formed
reply id, the edit call fails with an error other than content-unchanged. -/
def oEditOther : Oracles :=
  ⟨Except.ok [97], some [0, 0, 0, 0], Except.ok 30, EditOutcome.errOther, true⟩

/-- Oracles: like `oEditOther` but the edit fails with the distinguished
content-unchanged rejection. -/
def oEditNM : Oracles :=
  ⟨Except.ok [97], some [0, 0, 0, 0], Except.ok 30, EditOutcome.errNotModified, true⟩

/-- Oracles: the store answer for the event's key is three bytes long,
shorter than an `i32`. -/
def oBadLen : Oracles :=
  ⟨Except.ok [97], some [1, 2, 3], Except.ok 30, EditOutcome.ok, true⟩

/-- Oracles: the store has no entry for the event's key; sends succeed with
reply id 30. -/
def oMissing : Oracles :=
  ⟨Except.ok [97], none, Except.ok 30, EditOutcome.ok, true⟩

/-- Oracles: perl result is the decode of the whole zero-filled buffer, as a
successful `run_perl` with a silent child produces. -/
def oWholeBuf : Oracles :=
  ⟨Except.ok (run_perl_output []), none, Except.ok 30, EditOutcome.ok, true⟩

/-! ### Helper lemmas about the byte codecs -/

theorem fromLeBytes_toLeBytes (k : Nat) : ∀ n, fromLeBytes (toLeBytes n k) = n % 256 ^ k := by
  induction k with
  | zero => intro n; simp [toLeBytes, fromLeBytes, Nat.mod_one]
  | succ k ih =>
    intro n
    rw [toLeBytes, fromLeBytes, ih, pow_succ']
    rw [Nat.mod_mul]

theorem toLeBytes_inj {k n m : Nat} (hn : n < 256 ^ k) (hm : m < 256 ^ k)
    (h : toLeBytes n k = toLeBytes m k) : n = m := by
  have := congrArg fromLeBytes h
  rwa [fromLeBytes_toLeBytes, fromLeBytes_toLeBytes, Nat.mod_eq_of_lt hn,
    Nat.mod_eq_of_lt hm] at this

theorem asU128_emod_toNat (i : Int) (h0 : 0 ≤ i) (h1 : i < 2 ^ 128) : asU128 i = i.toNat := by
  unfold asU128
  omega

theorem asU128_neg (i : Int) (h0 : -(2 ^ 31) ≤ i) (h1 : i < 0) :
    asU128 i = 2 ^ 128 - i.natAbs := by
  unfold asU128
  omega

/-- Characterization of the 128-bit value inside `unique_id` when the chat id
is nonnegative: the or is then a disjoint sum, with the 64-bit
two's-complement image of the message id in the high half and the chat id in
the low half. -/
theorem unique_id_split (m c : Int) (hm0 : -(2 ^ 31) ≤ m) (hm1 : m < 2 ^ 31)
    (hc0 : 0 ≤ c) (hc1 : c < 2 ^ 63) :
    ∃ a, ((asU128 m <<< 64) % 2 ^ 128) ||| asU128 c = 2 ^ 64 * a + c.toNat ∧
      a < 2 ^ 64 ∧ (0 ≤ m → a = m.toNat) ∧ (m < 0 → a = 2 ^ 64 - m.natAbs) := by
  have hc' : asU128 c = c.toNat := asU128_emod_toNat c hc0 (by omega)
  have hcn : c.toNat < 2 ^ 64 := by omega
  rcases le_or_lt 0 m with hm | hm
  · refine ⟨m.toNat, ?_, by omega, fun _ => rfl, by omega⟩
    rw [hc', Nat.shiftLeft_eq, asU128_emod_toNat m hm (by omega)]
    have hmod : m.toNat * 2 ^ 64 % 2 ^ 128 = 2 ^ 64 * m.toNat := by
      have : m.toNat < 2 ^ 31 := by omega
      omega
    rw [hmod]
    exact (Nat.mul_add_lt_is_or hcn _).symm
  · refine ⟨2 ^ 64 - m.natAbs, ?_, by omega, by omega, fun _ => rfl⟩
    rw [hc', Nat.shiftLeft_eq, asU128_neg m hm0 hm]
    have habs : 1 ≤ m.natAbs ∧ m.natAbs ≤ 2 ^ 31 := by omega
    have hmod : (2 ^ 128 - m.natAbs) * 2 ^ 64 % 2 ^ 128 = 2 ^ 64 * (2 ^ 64 - m.natAbs) := by
      omega
    rw [hmod]
    exact (Nat.mul_add_lt_is_or hcn _).symm

/-! ### Helper lemmas about the lossy UTF-8 decoder -/

theorem isCont_iff {x : Nat} : isCont x = true ↔ 0x80 ≤ x ∧ x ≤ 0xBF := by
  simp [isCont]

theorem cpUtf8Size_repl : cpUtf8Size replChar = 3 := by decide

theorem one_le_cpUtf8Size (c : Nat) : 1 ≤ cpUtf8Size c := by
  unfold cpUtf8Size; split_ifs <;> omega

theorem two_le_cpUtf8Size {c : Nat} (h : 0x80 ≤ c) : 2 ≤ cpUtf8Size c := by
  unfold cpUtf8Size; split_ifs <;> omega

theorem three_le_cpUtf8Size {c : Nat} (h : 0x800 ≤ c) : 3 ≤ cpUtf8Size c := by
  unfold cpUtf8Size; split_ifs <;> omega

theorem four_le_cpUtf8Size {c : Nat} (h : 0x10000 ≤ c) : 4 ≤ cpUtf8Size c := by
  unfold cpUtf8Size; split_ifs <;> omega

/-- One `utf8Take4` step never lengthens the remainder and pays for the four
consumed bytes with the produced code point's UTF-8 size. -/
theorem utf8Take4_spec (b b2 b3 b4 : Nat) (rest4 : List Nat)
    (hb : 0xF0 ≤ b) (hb2 : snd2lo b ≤ b2) :
    (utf8Take4 b b2 b3 b4 rest4).2.length ≤ (b4 :: rest4).length ∧
    3 + (b4 :: rest4).length ≤
      cpUtf8Size (utf8Take4 b b2 b3 b4 rest4).1 + (utf8Take4 b b2 b3 b4 rest4).2.length := by
  unfold utf8Take4
  unfold snd2lo at hb2
  split_ifs with h
  · have hacc : 0x10000 ≤ utf8Acc4 b b2 b3 b4 := by
      unfold utf8Acc4
      split_ifs at hb2 <;> omega
    have := four_le_cpUtf8Size hacc
    constructor <;> simp <;> omega
  · have := cpUtf8Size_repl
    constructor <;> simp <;> omega

/-- One `utf8Take3` step never lengthens the remainder and pays for the
consumed bytes with the produced code point's UTF-8 size. -/
theorem utf8Take3_spec (b b2 b3 : Nat) (rest3 : List Nat)
    (hb : 0xE0 ≤ b) (hb4 : b ≤ 0xF4) (hb2 : snd2lo b ≤ b2) :
    (utf8Take3 b b2 b3 rest3).2.length ≤ (b3 :: rest3).length ∧
    2 + (b3 :: rest3).length ≤
      cpUtf8Size (utf8Take3 b b2 b3 rest3).1 + (utf8Take3 b b2 b3 rest3).2.length := by
  unfold utf8Take3
  split_ifs with h h2
  · have hacc : 0x800 ≤ utf8Acc3 b b2 b3 := by
      unfold utf8Acc3
      unfold snd2lo at hb2
      split_ifs at hb2 <;> omega
    have := three_le_cpUtf8Size hacc
    constructor <;> simp <;> omega
  · rcases rest3 with _ | ⟨b4, rest4⟩
    · have := cpUtf8Size_repl
      constructor <;> simp <;> omega
    · have hf : 0xF0 ≤ b := by omega
      have := utf8Take4_spec b b2 b3 b4 rest4 hf hb2
      constructor <;> simp at * <;> omega
  · have := cpUtf8Size_repl
    constructor <;> simp <;> omega

/-- One `utf8Take2` step never lengthens the remainder and pays for the
consumed bytes with the produced code point's UTF-8 size. -/
theorem utf8Take2_spec (b b2 : Nat) (rest2 : List Nat)
    (hb : 0xC2 ≤ b) (hb4 : b ≤ 0xF4) :
    (utf8Take2 b b2 rest2).2.length ≤ (b2 :: rest2).length ∧
    1 + (b2 :: rest2).length ≤
      cpUtf8Size (utf8Take2 b b2 rest2).1 + (utf8Take2 b b2 rest2).2.length := by
  unfold utf8Take2
  split_ifs with h h2 h3
  · have hc := isCont_iff.mp h2
    have hacc : 0x80 ≤ utf8Acc2 b b2 := by
      unfold utf8Acc2; omega
    have := two_le_cpUtf8Size hacc
    constructor <;> simp <;> omega
  · have := cpUtf8Size_repl
    constructor <;> simp <;> omega
  · rcases rest2 with _ | ⟨b3, rest3⟩
    · have := cpUtf8Size_repl
      constructor <;> simp <;> omega
    · have he : 0xE0 ≤ b := by
        by_contra hlt
        push_neg at hlt
        unfold snd2lo snd2hi at h3
        split_ifs at h3 <;> omega
      have := utf8Take3_spec b b2 b3 rest3 he hb4 h3.1
      constructor <;> simp at * <;> omega
  · have := cpUtf8Size_repl
    constructor <;> simp <;> omega

/-- One decoder step consumes at least one byte and the produced code point
needs at least as many UTF-8 bytes as were consumed. -/
theorem utf8Step_spec (b : Nat) (rest : List Nat) :
    (utf8Step b rest).2.length ≤ rest.length ∧
    rest.length < cpUtf8Size (utf8Step b rest).1 + (utf8Step b rest).2.length := by
  unfold utf8Step
  split_ifs with h h2 h3
  · have := one_le_cpUtf8Size b
    constructor <;> simp <;> omega
  · have := cpUtf8Size_repl
    constructor <;> simp <;> omega
  · rcases rest with _ | ⟨b2, rest2⟩
    · have := cpUtf8Size_repl
      constructor <;> simp <;> omega
    · have := utf8Take2_spec b b2 rest2 (by omega) h3
      constructor <;> simp at * <;> omega
  · have := cpUtf8Size_repl
    constructor <;> simp <;> omega

theorem utf8LossyFuel_size (fuel : Nat) :
    ∀ l : List Nat, l.length ≤ fuel → l.length ≤ utf8SizeSum (utf8LossyFuel fuel l) := by
  induction fuel with
  | zero =>
    intro l h
    have : l = [] := by
      cases l
      · rfl
      · simp at h
    subst this
    simp [utf8LossyFuel]
  | succ fuel ih =>
    intro l h
    rcases l with _ | ⟨b, rest⟩
    · simp [utf8LossyFuel]
    · rw [utf8LossyFuel, utf8SizeSum]
      have hs := utf8Step_spec b rest
      have hr := ih (utf8Step b rest).2 (by simp at h; omega)
      simp at h ⊢
      omega

/-- The decoded string never has fewer UTF-8 bytes than the decoded input:
valid sequences re-encode to themselves and every replaced maximal subpart
(1-3 bytes) is paid for by the 3-byte replacement character. -/
theorem utf8Lossy_size (l : List Nat) : l.length ≤ utf8SizeSum (utf8Lossy l) :=
  utf8LossyFuel_size l.length l (Nat.le_refl _)

theorem utf8LossyFuel_ne_nil (fuel : Nat) (b : Nat) (rest : List Nat) :
    utf8LossyFuel (fuel + 1) (b :: rest) ≠ [] := by
  rw [utf8LossyFuel]
  simp

theorem utf8Lossy_ne_nil {l : List Nat} (h : l ≠ []) : utf8Lossy l ≠ [] := by
  rcases l with _ | ⟨b, rest⟩
  · exact absurd rfl h
  · rw [utf8Lossy]
    simpa using utf8LossyFuel_ne_nil rest.length b rest

theorem utf8Step_zero (rest : List Nat) : utf8Step 0 rest = (0, rest) := by
  unfold utf8Step
  norm_num

theorem utf8LossyFuel_replicate_zero (fuel : Nat) :
    ∀ k, k ≤ fuel → utf8LossyFuel fuel (List.replicate k 0) = List.replicate k 0 := by
  induction fuel with
  | zero => intro k h; interval_cases k; simp [utf8LossyFuel]
  | succ fuel ih =>
    intro k h
    rcases k with _ | k
    · simp [utf8LossyFuel]
    · rw [List.replicate, utf8LossyFuel, utf8Step_zero]
      simp only
      rw [ih k (by omega)]

/-- A block of NUL bytes decodes to the same block of NUL code points. -/
theorem utf8Lossy_replicate_zero (k : Nat) :
    utf8Lossy (List.replicate k 0) = List.replicate k 0 := by
  rw [utf8Lossy]
  exact utf8LossyFuel_replicate_zero _ k (by simp)

theorem fillBuf_length (out : List Nat) : (fillBuf out).length = 1024 := by
  unfold fillBuf
  simp
  omega

theorem fillBuf_ne_nil (out : List Nat) : fillBuf out ≠ [] := by
  intro h
  have := fillBuf_length out
  rw [h] at this
  simp at this

/-! ### Helper lemmas about the dispatcher -/

/-- Membership in the action list after the `;del` step: either the action
was already present or the text carries a `;del` line and the action is the
deletion of the inbound message. -/
theorem mem_delStep {a : Action} {m : Msg} {raw : String} {o : Oracles} {acts : List Action}
    {t : Terminal} :
    a ∈ (delStep m raw o acts t).1 ↔
      a ∈ acts ∨
        ((rustLines raw).any (fun l => l == ";del") = true ∧ a = Action.delete m.chatId m.id) := by
  unfold delStep
  split_ifs with h <;> simp [h]

/-- The `;del` step either keeps the incoming terminal state or turns it
into the deletion failure. -/
theorem delStep_snd (m : Msg) (raw : String) (o : Oracles) (acts : List Action) (t : Terminal) :
    (delStep m raw o acts t).2 = t ∨
      (delStep m raw o acts t).2 = Terminal.failed DispatchError.deleteFailed := by
  unfold delStep
  split_ifs <;> simp

/-- When no `;del` line is present or the deletion call succeeds, the `;del`
step keeps the incoming terminal state. -/
theorem delStep_snd_of (m : Msg) (raw : String) (o : Oracles) (acts : List Action) (t : Terminal)
    (h : (rustLines raw).any (fun l => l == ";del") = false ∨ o.deleteOk = true) :
    (delStep m raw o acts t).2 = t := by
  unfold delStep
  split_ifs with hd hk
  · rfl
  · rcases h with h | h
    · rw [h] at hd; exact absurd hd (by simp)
    · exact absurd h hk
  · rfl

/-- An event that passes all guards (reply with text, at least one
expression, successful execution, non-empty result) never terminates
`suppressed`. -/
theorem dispatchMsg_not_suppressed (m : Msg) (edited : Bool) (o : Oracles) (rt : RefMsg)
    (text raw : String) (res : List Nat)
    (h1 : m.replyTo = some rt) (h2 : rt.text = some text) (h3 : m.text = some raw)
    (h4 : filter_exprs raw ≠ []) (h5 : o.perlRes = Except.ok res) (h6 : res ≠ []) :
    (dispatchMsg m edited o).2 ≠ Terminal.suppressed := by
  obtain ⟨mid, mchat, mtext, mreply⟩ := m
  simp only at h1 h3
  subst h1 h3
  obtain ⟨rid, rchat, rtext⟩ := rt
  simp only at h2
  subst h2
  cases edited
  · rcases hs : o.sendRes with i | i
    · simp [dispatchMsg, h4, h5, h6, hs]
    · rcases delStep_snd ⟨mid, mchat, some raw, some ⟨rid, rchat, some text⟩⟩ raw o
        [Action.invokePerl (filter_exprs raw) text, Action.send rchat rid res,
          Action.dbInsert (unique_id mid mchat) (i32ToLeBytes i)] Terminal.replied with hd | hd <;>
        simp [dispatchMsg, h4, h5, h6, hs, hd]
  · rcases hd : o.dbGet with _ | stored
    · simp [dispatchMsg, h4, h5, h6, hd]
    · by_cases hlen : stored.length = 4
      · rcases he : o.editRes with _ | _ | _
        all_goals
          rcases delStep_snd ⟨mid, mchat, some raw, some ⟨rid, rchat, some text⟩⟩ raw o
            [Action.invokePerl (filter_exprs raw) text,
              Action.edit mchat (i32FromLeBytes stored) res] Terminal.edited with hds | hds <;>
            simp [dispatchMsg, h4, h5, h6, hd, hlen, he, hds]
      · simp [dispatchMsg, h4, h5, h6, hd, hlen]

/-! ### Claim theorems -/

/-- Claim C1, counterexample: `unique_id` is not injective over the practical
id range. The chat id is sign-extended to 128 bits before the or, so for a
negative chat id the high 64 bits are all ones and absorb the shifted
message id: the distinct pairs (1, -1001234567890) and (2, -1001234567890)
produce the same 16-byte key. -/
theorem C1_unique_id_collision :
    unique_id 1 (-1001234567890) = unique_id 2 (-1001234567890) ∧
      ¬((1 : Int) = 2 ∧ (-1001234567890 : Int) = -1001234567890) := by
  constructor
  · decide
  · intro hc
    exact absurd hc.1 (by decide)

/-- Claim C1, amended: `unique_id` is deterministic and injective over
32-bit signed message ids as long as the chat ids are nonnegative; two
distinct pairs with nonnegative chat ids never produce the same 16-byte
key. -/
theorem C1_unique_id_inj (m1 c1 m2 c2 : Int)
    (hm1 : -(2 ^ 31) ≤ m1 ∧ m1 < 2 ^ 31) (hm2 : -(2 ^ 31) ≤ m2 ∧ m2 < 2 ^ 31)
    (hc1 : 0 ≤ c1 ∧ c1 < 2 ^ 63) (hc2 : 0 ≤ c2 ∧ c2 < 2 ^ 63)
    (h : unique_id m1 c1 = unique_id m2 c2) : m1 = m2 ∧ c1 = c2 := by
  obtain ⟨a1, he1, hb1, hp1, hn1⟩ := unique_id_split m1 c1 hm1.1 hm1.2 hc1.1 hc1.2
  obtain ⟨a2, he2, hb2, hp2, hn2⟩ := unique_id_split m2 c2 hm2.1 hm2.2 hc2.1 hc2.2
  unfold unique_id at h
  rw [he1, he2] at h
  have h2 : (256 : Nat) ^ 16 = 2 ^ 128 := by norm_num
  have hv1 : 2 ^ 64 * a1 + c1.toNat < 256 ^ 16 := by rw [h2]; omega
  have hv2 : 2 ^ 64 * a2 + c2.toNat < 256 ^ 16 := by rw [h2]; omega
  have heq := toLeBytes_inj hv1 hv2 h
  have ha : a1 = a2 ∧ c1.toNat = c2.toNat := by constructor <;> omega
  rcases le_or_lt 0 m1 with s1 | s1 <;> rcases le_or_lt 0 m2 with s2 | s2
  · have := hp1 s1; have := hp2 s2; constructor <;> omega
  · have := hp1 s1; have := hn2 s2; constructor <;> omega
  · have := hn1 s1; have := hp2 s2; constructor <;> omega
  · have := hn1 s1; have := hn2 s2; constructor <;> omega

/-- Witness for the amended claim C1 at the concrete pair (5, 7). -/
theorem C1_unique_id_inj_w : (5 : Int) = 5 ∧ (7 : Int) = 7 :=
  C1_unique_id_inj 5 7 5 7 (by constructor <;> decide) (by constructor <;> decide)
    (by constructor <;> decide) (by constructor <;> decide) rfl

/-- Claim C2, failing-input evaluation: with empty input and a child that
writes nothing, the buffer stays all zero and the code returns the lossy
decode of the whole 1024-byte buffer — 1024 NUL code points — instead of the
empty string the claim requires. -/
theorem C2_empty_input_bug :
    run_perl_output [] = List.replicate 1024 0 ∧ run_perl_output [] ≠ [] := by
  have h : fillBuf [] = List.replicate 1024 0 := by
    unfold fillBuf
    simp
  constructor
  · rw [run_perl_output, h, utf8Lossy_replicate_zero]
  · rw [run_perl_output, h, utf8Lossy_replicate_zero]
    simp

/-- Claim C3, counterexample: an edited event whose text carries a `;del`
line and whose edit call fails with an error other than content-unchanged
terminates `Failed` without any deletion request — deletion is NOT
independent of the reply/edit outcome. -/
theorem C3_no_delete_on_failed_edit :
    mB.text = some ("s/a/b/\n;del") ∧
    (rustLines ("s/a/b/\n;del")).any (fun l => l == ";del") = true ∧
    (dispatchMsg mB true oEditOther).2 = Terminal.failed DispatchError.editFailed ∧
    (∀ a ∈ (dispatchMsg mB true oEditOther).1, isDelete a = false) := by
  refine ⟨rfl, by decide, by decide, by decide⟩

/-- Claim C3, amended: for an event that reaches the reply/edit stage, the
inbound message's deletion is requested iff its text contains a `;del` line
AND the reply/edit stage completed without a propagated error (a swallowed
content-unchanged rejection still counts as success); a failed send or a
propagated edit failure skips the deletion. -/
theorem C3_delete_after_success (m : Msg) (edited : Bool) (o : Oracles) (rt : RefMsg)
    (text raw : String) (res : List Nat)
    (h1 : m.replyTo = some rt) (h2 : rt.text = some text) (h3 : m.text = some raw)
    (h4 : filter_exprs raw ≠ []) (h5 : o.perlRes = Except.ok res) (h6 : res ≠ []) :
    Action.delete m.chatId m.id ∈ (dispatchMsg m edited o).1 ↔
      ((rustLines raw).any (fun l => l == ";del") = true ∧ replyStageOk edited o) := by
  obtain ⟨mid, mchat, mtext, mreply⟩ := m
  simp only at h1 h3
  subst h1 h3
  obtain ⟨rid, rchat, rtext⟩ := rt
  simp only at h2
  subst h2
  cases edited
  · rcases hs : o.sendRes with i | i
    · simp [dispatchMsg, h4, h5, h6, hs, replyStageOk]
    · simp [dispatchMsg, h4, h5, h6, hs, replyStageOk, mem_delStep]
  · rcases hd : o.dbGet with _ | stored
    · simp [dispatchMsg, h4, h5, h6, hd, replyStageOk]
    · by_cases hlen : stored.length = 4
      · rcases he : o.editRes with _ | _ | _
        · simp [dispatchMsg, h4, h5, h6, hd, hlen, he, replyStageOk, mem_delStep]
        · simp [dispatchMsg, h4, h5, h6, hd, hlen, he, replyStageOk, mem_delStep]
        · simp [dispatchMsg, h4, h5, h6, hd, hlen, he, replyStageOk]
      · simp [dispatchMsg, h4, h5, h6, hd, hlen, replyStageOk]

/-- Witness for the amended claim C3: with a succeeding (content-unchanged)
edit and a `;del` line, the deletion is requested. -/
theorem C3_delete_after_success_w :
    Action.delete mB.chatId mB.id ∈ (dispatchMsg mB true oEditNM).1 := by
  refine (C3_delete_after_success mB true oEditNM rtA ("x") ("s/a/b/\n;del") [97]
    rfl rfl rfl (by decide) rfl (by decide)).mpr ⟨by decide, ?_⟩
  unfold replyStageOk
  exact ⟨⟨[0, 0, 0, 0], rfl, by decide⟩, by decide⟩

/-- Claim C4, counterexample: no set of FOUR delimiter characters describes
the filter — the five lines `s/`, `s(`, `s[`, `s<`, `s{` are all retained,
with five pairwise-distinct second characters, so any delimiter set
characterizing retention has at least five elements. -/
theorem C4_five_delimiters : ¬ ∃ D : Finset Char, D.card = 4 ∧
    ∀ raw line : String, line ∈ filter_exprs raw ↔
      (line ∈ rustLines raw ∧ ∃ d ∈ D, ∃ tail, line.data = 's' :: d :: tail) := by
  rintro ⟨D, hcard, hiff⟩
  have mem : ∀ s : String, s ∈ filter_exprs s → ∃ d ∈ D, ∃ tail, s.data = 's' :: d :: tail :=
    fun s hs => ((hiff s s).mp hs).2
  have h1 := mem ("s/") (by decide)
  have h2 := mem ("s(") (by decide)
  have h3 := mem ("s[") (by decide)
  have h4 := mem ("s<") (by decide)
  have h5 := mem ("s\x7b") (by decide)
  have e1 : ('/' : Char) ∈ D := by
    obtain ⟨d, hd, tail, he⟩ := h1
    have hds : ("s/").data = ['s', '/'] := rfl
    rw [hds] at he
    simp at he
    rwa [← he.1] at hd
  have e2 : ('(' : Char) ∈ D := by
    obtain ⟨d, hd, tail, he⟩ := h2
    have hds : ("s(").data = ['s', '('] := rfl
    rw [hds] at he
    simp at he
    rwa [← he.1] at hd
  have e3 : ('[' : Char) ∈ D := by
    obtain ⟨d, hd, tail, he⟩ := h3
    have hds : ("s[").data = ['s', '['] := rfl
    rw [hds] at he
    simp at he
    rwa [← he.1] at hd
  have e4 : ('<' : Char) ∈ D := by
    obtain ⟨d, hd, tail, he⟩ := h4
    have hds : ("s<").data = ['s', '<'] := rfl
    rw [hds] at he
    simp at he
    rwa [← he.1] at hd
  have e5 : Char.ofNat 123 ∈ D := by
    obtain ⟨d, hd, tail, he⟩ := h5
    have hds : ("s\x7b").data = ['s', Char.ofNat 123] := rfl
    rw [hds] at he
    simp at he
    rwa [← he.1] at hd
  have hsub : ({'/', '(', '[', '<', Char.ofNat 123} : Finset Char) ⊆ D := by
    intro x hx
    simp at hx
    rcases hx with h | h | h | h | h <;> subst h <;> assumption
  have hfive : ({'/', '(', '[', '<', Char.ofNat 123} : Finset Char).card = 5 := by decide
  have := Finset.card_le_card hsub
  omega

/-- Claim C4, amended: a line of the input is retained by `filter_exprs` iff
its first two characters are `s` followed by one of the FIVE delimiters
`/`, `(`, `[`, `<`, `{`; retained lines appear in input order (the output is
a sublist of the input's lines); all other lines are dropped without
error. -/
theorem C4_filter_exprs (raw : String) :
    (∀ line, line ∈ filter_exprs raw ↔ line ∈ rustLines raw ∧ isSubstLine line = true) ∧
    (filter_exprs raw).Sublist (rustLines raw) ∧
    (∀ line : String, isSubstLine line = true ↔
      ∃ d tail, line.data = 's' :: d :: tail ∧
        (d = '/' ∨ d = '(' ∨ d = '[' ∨ d = '<' ∨ d = Char.ofNat 123)) := by
  refine ⟨?_, List.filter_sublist _, ?_⟩
  · intro line
    simp [filter_exprs, List.mem_filter]
  · intro line
    unfold isSubstLine
    rcases hl : line.data with _ | ⟨c, tl⟩
    · simp [hl]
    · rcases tl with _ | ⟨d, tl2⟩
      · simp [hl]
      · simp [hl]
        constructor
        · rintro ⟨hc, hd⟩
          exact ⟨d, ⟨hc, rfl⟩, by tauto⟩
        · rintro ⟨d', ⟨hc, hdd⟩, hd'⟩
          subst hdd
          exact ⟨hc, by tauto⟩

/-- Witness for the amended claim C4 at a concrete two-line input. -/
theorem C4_filter_exprs_w : ("s(x)(y)" : String) ∈ filter_exprs ("s(x)(y)\nnope") :=
  ((C4_filter_exprs ("s(x)(y)\nnope")).1 ("s(x)(y)")).mpr ⟨by decide, by decide⟩

/-- Claim C5: a successful `run_perl` returns the lossy decode of the whole
1024-byte buffer (trailing unwritten zeros included), its UTF-8 byte length
is at least 1024, it is never empty, and consequently the dispatcher's
empty-result suppression branch is unreachable after a successful
execution: with such a result, `suppressed` can only arise from the
pre-execution guards. -/
theorem C5_result_is_whole_buffer (out : List Nat) :
    (fillBuf out).length = 1024 ∧
    run_perl_output out = utf8Lossy (fillBuf out) ∧
    1024 ≤ utf8SizeSum (run_perl_output out) ∧
    run_perl_output out ≠ [] ∧
    (∀ (m : Msg) (edited : Bool) (o : Oracles),
      o.perlRes = Except.ok (run_perl_output out) →
      (dispatchMsg m edited o).2 = Terminal.suppressed →
      m.replyTo = none ∨ (∃ rt, m.replyTo = some rt ∧ rt.text = none) ∨ m.text = none ∨
        (∃ raw, m.text = some raw ∧ filter_exprs raw = [])) := by
  have hne : run_perl_output out ≠ [] := utf8Lossy_ne_nil (fillBuf_ne_nil out)
  refine ⟨fillBuf_length out, rfl, ?_, hne, ?_⟩
  · have h1 := utf8Lossy_size (fillBuf out)
    rw [fillBuf_length out] at h1
    exact h1
  · intro m edited o hperl hsup
    obtain ⟨mid, mchat, mtext, mreply⟩ := m
    rcases mreply with _ | rt
    · exact Or.inl rfl
    · rcases rt with ⟨rid, rchat, rtext⟩
      rcases rtext with _ | text
      · exact Or.inr (Or.inl ⟨_, rfl, rfl⟩)
      · rcases mtext with _ | raw
        · exact Or.inr (Or.inr (Or.inl rfl))
        · by_cases hf : filter_exprs raw = []
          · exact Or.inr (Or.inr (Or.inr ⟨raw, rfl, hf⟩))
          · exact absurd hsup
              (dispatchMsg_not_suppressed _ edited o ⟨rid, rchat, some text⟩ text raw
                (run_perl_output out) rfl rfl rfl hf hperl hne)

/-- Witness for claim C5 at the empty child output. -/
theorem C5_result_is_whole_buffer_w : run_perl_output [] ≠ [] :=
  (C5_result_is_whole_buffer []).2.2.2.1

/-- Claim C6: an event that is not a reply, or whose referenced message has
no text, or whose own text yields no recognized expression line, or whose
execution result is empty, terminates `suppressed`: no reply, no edit, no
store write, no deletion, no error; and under the first three conditions no
pipeline invocation happens at all. -/
theorem C6_suppression (m : Msg) (edited : Bool) (o : Oracles)
    (h : m.replyTo = none ∨ (∃ rt, m.replyTo = some rt ∧ rt.text = none) ∨
         (∀ raw, m.text = some raw → filter_exprs raw = []) ∨ o.perlRes = Except.ok []) :
    (dispatchMsg m edited o).2 = Terminal.suppressed ∧
    (∀ a ∈ (dispatchMsg m edited o).1, isInvokePerl a = true) ∧
    ((m.replyTo = none ∨ (∃ rt, m.replyTo = some rt ∧ rt.text = none) ∨
      (∀ raw, m.text = some raw → filter_exprs raw = [])) →
      (dispatchMsg m edited o).1 = []) := by
  obtain ⟨mid, mchat, mtext, mreply⟩ := m
  rcases mreply with _ | rt
  · simp [dispatchMsg]
  · rcases rt with ⟨rid, rchat, rtext⟩
    rcases rtext with _ | text
    · simp [dispatchMsg]
    · rcases mtext with _ | raw
      · simp [dispatchMsg]
      · have hfp : (∃ rt, (some (⟨rid, rchat, some text⟩ : RefMsg) = some rt ∧ rt.text = none)) →
            False := by
          rintro ⟨rt, hrt, htext⟩
          injection hrt with hrt
          rw [← hrt] at htext
          simp at htext
        rcases h with h | h | h | h
        · simp at h
        · exact absurd h hfp
        · have hf : filter_exprs raw = [] := h raw rfl
          simp [dispatchMsg, hf]
        · by_cases hf : filter_exprs raw = []
          · simp [dispatchMsg, hf]
          · refine ⟨?_, ?_, ?_⟩
            · simp [dispatchMsg, hf, h]
            · simp [dispatchMsg, hf, h, isInvokePerl]
            · rintro (hc | hc | hc)
              · simp at hc
              · exact absurd hc hfp
              · exact absurd (hc raw rfl) hf

/-- Witness for claim C6 at a concrete non-reply event. -/
theorem C6_suppression_w :
    (dispatchMsg mNoReply false oMissing).2 = Terminal.suppressed ∧
    (∀ a ∈ (dispatchMsg mNoReply false oMissing).1, isInvokePerl a = true) ∧
    (dispatchMsg mNoReply false oMissing).1 = [] := by
  have h := C6_suppression mNoReply false oMissing (Or.inl rfl)
  exact ⟨h.1, h.2.1, h.2.2 (Or.inl rfl)⟩

/-- Claim C7: for an edited event with a non-empty result and a well-formed
store entry, an edit failing with the distinguished content-unchanged
rejection is swallowed and the event terminates `edited` (success), while
any other edit failure terminates `Failed`. The hypothesis on the deletion
directive keeps the orthogonal `;del` step from failing afterwards. -/
theorem C7_edit_content_unchanged (m : Msg) (o : Oracles) (rt : RefMsg) (text raw : String)
    (res stored : List Nat)
    (h1 : m.replyTo = some rt) (h2 : rt.text = some text) (h3 : m.text = some raw)
    (h4 : filter_exprs raw ≠ []) (h5 : o.perlRes = Except.ok res) (h6 : res ≠ [])
    (h7 : o.dbGet = some stored) (h8 : stored.length = 4)
    (h9 : (rustLines raw).any (fun l => l == ";del") = false ∨ o.deleteOk = true) :
    ((o.editRes = EditOutcome.errNotModified ∨ o.editRes = EditOutcome.ok) →
      (dispatchMsg m true o).2 = Terminal.edited) ∧
    (o.editRes = EditOutcome.errOther →
      (dispatchMsg m true o).2 = Terminal.failed DispatchError.editFailed) := by
  obtain ⟨mid, mchat, mtext, mreply⟩ := m
  simp only at h1 h3
  subst h1 h3
  obtain ⟨rid, rchat, rtext⟩ := rt
  simp only at h2
  subst h2
  constructor
  · intro he
    rcases he with he | he <;>
      · simp [dispatchMsg, h4, h5, h6, h7, h8, he]
        exact delStep_snd_of _ _ _ _ _ h9
  · intro he
    simp [dispatchMsg, h4, h5, h6, h7, h8, he]

/-- Witness for claim C7: a concrete edited event whose edit is rejected as
content-unchanged still terminates `edited`. -/
theorem C7_edit_content_unchanged_w : (dispatchMsg mA true oEditNM).2 = Terminal.edited :=
  (C7_edit_content_unchanged mA oEditNM rtA ("x") ("s/a/b/") [97] [0, 0, 0, 0]
    rfl rfl rfl (by decide) rfl (by decide) rfl (by decide) (Or.inl (by decide))).1 (Or.inl rfl)

/-- Claim C8, counterexample: the malformed-store-value error is the bare
`dbWrongLen`, carrying no event identity at all — two events with distinct
identities produce the very same error value, so the error does not carry
the event identity as claimed. -/
theorem C8_error_lacks_identity :
    (dispatchMsg mB true oBadLen).2 = Terminal.failed DispatchError.dbWrongLen ∧
    (dispatchMsg mC true oBadLen).2 = Terminal.failed DispatchError.dbWrongLen ∧
    unique_id mB.id mB.chatId ≠ unique_id mC.id mC.chatId := by
  refine ⟨by decide, by decide, by decide⟩

/-- Claim C8, amended: for an edited event with a non-empty result, a
missing store entry terminates `Failed` with the missing-entry error (which
carries the message id, not the full event identity), a malformed stored
value terminates `Failed` with the bare wrong-length error, and in both
cases no store write and no edit call is performed (the only action is the
pipeline invocation). -/
theorem C8_store_inconsistency (m : Msg) (o : Oracles) (rt : RefMsg) (text raw : String)
    (res : List Nat)
    (h1 : m.replyTo = some rt) (h2 : rt.text = some text) (h3 : m.text = some raw)
    (h4 : filter_exprs raw ≠ []) (h5 : o.perlRes = Except.ok res) (h6 : res ≠ [])
    (h7 : o.dbGet = none ∨ ∃ stored, o.dbGet = some stored ∧ stored.length ≠ 4) :
    ((dispatchMsg m true o).2 = Terminal.failed (DispatchError.dbMissing m.id) ∨
      (dispatchMsg m true o).2 = Terminal.failed DispatchError.dbWrongLen) ∧
    (o.dbGet = none → (dispatchMsg m true o).2 = Terminal.failed (DispatchError.dbMissing m.id)) ∧
    (∀ stored, o.dbGet = some stored → stored.length ≠ 4 →
      (dispatchMsg m true o).2 = Terminal.failed DispatchError.dbWrongLen) ∧
    (∀ a ∈ (dispatchMsg m true o).1, isInvokePerl a = true) := by
  obtain ⟨mid, mchat, mtext, mreply⟩ := m
  simp only at h1 h3
  subst h1 h3
  obtain ⟨rid, rchat, rtext⟩ := rt
  simp only at h2
  subst h2
  have hnone : o.dbGet = none →
      dispatchMsg ⟨mid, mchat, some raw, some ⟨rid, rchat, some text⟩⟩ true o =
        ([Action.invokePerl (filter_exprs raw) text],
         Terminal.failed (DispatchError.dbMissing mid)) := by
    intro hd
    simp [dispatchMsg, h4, h5, h6, hd]
  have hsome : ∀ stored, o.dbGet = some stored → stored.length ≠ 4 →
      dispatchMsg ⟨mid, mchat, some raw, some ⟨rid, rchat, some text⟩⟩ true o =
        ([Action.invokePerl (filter_exprs raw) text], Terminal.failed DispatchError.dbWrongLen) := by
    intro stored hd hlen
    simp [dispatchMsg, h4, h5, h6, hd, hlen]
  rcases h7 with h7 | ⟨stored, hd, hlen⟩
  · rw [hnone h7]
    refine ⟨Or.inl rfl, fun _ => rfl, ?_, ?_⟩
    · intro stored hd
      rw [h7] at hd
      exact absurd hd (by simp)
    · intro a ha
      simp at ha
      subst ha
      rfl
  · rw [hsome stored hd hlen]
    refine ⟨Or.inr rfl, ?_, ?_, ?_⟩
    · intro hnone'
      rw [hnone'] at hd
      exact absurd hd (by simp)
    · intro stored' hd' hlen'
      rfl
    · intro a ha
      simp at ha
      subst ha
      rfl

/-- Witness for the amended claim C8 at a concrete malformed stored value. -/
theorem C8_store_inconsistency_w :
    (dispatchMsg mA true oBadLen).2 = Terminal.failed DispatchError.dbWrongLen :=
  (C8_store_inconsistency mA oBadLen rtA ("x") ("s/a/b/") [97]
    rfl rfl rfl (by decide) rfl (by decide)
    (Or.inr ⟨[1, 2, 3], rfl, by decide⟩)).2.2.1 [1, 2, 3] rfl (by decide)

/-- Claim C9: a store entry is written only on the new-message path, only
after the reply was sent successfully, keyed by `unique_id` of the inbound
event and valued with the little-endian bytes of the sent reply's id; the
edit path never inserts, and a failed send writes nothing. -/
theorem C9_store_write (m : Msg) (edited : Bool) (o : Oracles) :
    (edited = true → ∀ a ∈ (dispatchMsg m edited o).1, isInsert a = false) ∧
    ((∀ i : Int, o.sendRes ≠ Except.ok i) → ∀ a ∈ (dispatchMsg m edited o).1, isInsert a = false) ∧
    (∀ key value, Action.dbInsert key value ∈ (dispatchMsg m edited o).1 →
      edited = false ∧ key = unique_id m.id m.chatId ∧
      (∃ sentId, o.sendRes = Except.ok sentId ∧ value = i32ToLeBytes sentId) ∧
      (∃ rt res, m.replyTo = some rt ∧
        Action.send rt.chatId rt.id res ∈ (dispatchMsg m edited o).1)) := by
  obtain ⟨mid, mchat, mtext, mreply⟩ := m
  have core : ∀ key value,
      Action.dbInsert key value ∈ (dispatchMsg ⟨mid, mchat, mtext, mreply⟩ edited o).1 →
      edited = false ∧ key = unique_id mid mchat ∧
      (∃ sentId, o.sendRes = Except.ok sentId ∧ value = i32ToLeBytes sentId) ∧
      (∃ rt res, mreply = some rt ∧
        Action.send rt.chatId rt.id res ∈ (dispatchMsg ⟨mid, mchat, mtext, mreply⟩ edited o).1) := by
    intro key value hmem
    rcases mreply with _ | ⟨rid, rchat, rtext⟩
    · simp [dispatchMsg] at hmem
    · rcases rtext with _ | text
      · simp [dispatchMsg] at hmem
      · rcases mtext with _ | raw
        · simp [dispatchMsg] at hmem
        · by_cases hf : filter_exprs raw = []
          · simp [dispatchMsg, hf] at hmem
          · rcases hp : o.perlRes with e | res
            · simp [dispatchMsg, hf, hp] at hmem
            · by_cases hr : res = []
              · simp [dispatchMsg, hf, hp, hr] at hmem
              · cases edited
                · rcases hs : o.sendRes with i | i
                  · simp [dispatchMsg, hf, hp, hr, hs] at hmem
                  · simp [dispatchMsg, hf, hp, hr, hs, mem_delStep] at hmem
                    obtain ⟨hk, hv⟩ := hmem
                    subst hk hv
                    refine ⟨rfl, rfl, ⟨i, rfl, rfl⟩,
                      ⟨⟨rid, rchat, some text⟩, res, rfl, ?_⟩⟩
                    simp [dispatchMsg, hf, hp, hr, hs, mem_delStep]
                · rcases hd : o.dbGet with _ | stored
                  · simp [dispatchMsg, hf, hp, hr, hd] at hmem
                  · by_cases hlen : stored.length = 4
                    · rcases he : o.editRes with _ | _ | _ <;>
                        simp [dispatchMsg, hf, hp, hr, hd, hlen, he, mem_delStep] at hmem
                    · simp [dispatchMsg, hf, hp, hr, hd, hlen] at hmem
  refine ⟨?_, ?_, core⟩
  · intro hed a ha
    cases a with
    | dbInsert k v =>
      obtain ⟨hfalse, _⟩ := core k v ha
      rw [hed] at hfalse
      exact absurd hfalse (by simp)
    | invokePerl e i => rfl
    | send c r t => rfl
    | edit c i t => rfl
    | delete c i => rfl
  · intro hcon a ha
    cases a with
    | dbInsert k v =>
      obtain ⟨_, _, ⟨i, hs, _⟩, _⟩ := core k v ha
      exact absurd hs (hcon i)
    | invokePerl e i => rfl
    | send c r t => rfl
    | edit c i t => rfl
    | delete c i => rfl

/-- Witness for claim C9: the concrete new-message success path carries its
insert with the right key and value, after a successful send. -/
theorem C9_store_write_w :
    false = false ∧ unique_id mA.id mA.chatId = unique_id mA.id mA.chatId ∧
      (∃ sentId, oMissing.sendRes = Except.ok sentId ∧
        i32ToLeBytes 30 = i32ToLeBytes sentId) ∧
      (∃ rt res, mA.replyTo = some rt ∧
        Action.send rt.chatId rt.id res ∈ (dispatchMsg mA false oMissing).1) :=
  (C9_store_write mA false oMissing).2.2 (unique_id mA.id mA.chatId) (i32ToLeBytes 30) (by decide)

/-- Claim C10: `run_perl` builds the subprocess invocation in exactly the
specified layer order — timeout (TERM, kill after a grace period), prlimit
memory/CPU ceilings, bwrap with private /proc and /dev plus read-only binds
of exactly the configured allow-listed directories, prlimit nproc=1, then
perl in `-lpe` one-line mode with UTF-8 forced on stdin/stdout — with the
environment reduced to `LANG=C` and each expression appended in order as a
separate `-E "{expr};"` statement. -/
theorem C10_run_perl_cmd (cfg : Config) (exprs : List String) :
    run_perl_cmd cfg exprs =
      ([cfg.timeout] ++ ["--signal", "TERM", "--kill-after", "1s", "0.5s"]
        ++ [cfg.prlimit] ++ ["--memlock=65535", "--rss=4194304", "--cpu=2"]
        ++ [cfg.bwrap] ++ ["--unshare-all", "--proc", "/proc", "--dev", "/dev"]
        ++ cfg.allow_dirs.flatMap (fun dir => ["--ro-bind", dir, dir])
        ++ [cfg.prlimit] ++ ["--nproc=1"]
        ++ [cfg.perl] ++ ["-Mutf8", "-lpe", perlPreamble]
        ++ exprs.flatMap (fun e => ["-E", e ++ ";"]),
       [("LANG", "C")]) := by
  simp [run_perl_cmd]

end Perlsub
